import Mathlib

/-!
Shallow embedding of the Ximage frontend batch-compression logic
(src/src/App.vue): the file list model, `addFileByPath`, `buildFileData`,
`compressImages` and `totalSavingsPercent`, together with theorems about
the claims on this code.

Effectful collaborators (filesystem reads, blob fetches, and the Tauri
backend command `compress_uploaded_files`) are modelled as oracle
functions supplied in an environment; a thrown JavaScript exception is
modelled as an `Except.error`. JavaScript `Math.round` is modelled on
rationals as `jsRound`.
-/

/-- JavaScript Math.round on a rational: floor of q + 1/2 (halves round toward positive infinity). -/
def jsRound (q : ℚ) : ℤ := ⌊q + 1/2⌋

/-- Helper for jsSplit: walk the characters, cutting at each separator. -/
def jsSplitAux (sep : Char) : List Char → List Char → List String
  | [], acc => [String.mk acc.reverse]
  | c :: rest, acc =>
    if c = sep then String.mk acc.reverse :: jsSplitAux sep rest []
    else jsSplitAux sep rest (c :: acc)

/-- JavaScript String.split with a one-character separator: always returns at
least one segment, and a trailing separator yields a trailing empty segment. -/
def jsSplit (sep : Char) (s : String) : List String :=
  jsSplitAux sep s.data []

/-- JavaScript String.toUpperCase restricted to the ASCII range the code uses. -/
def jsToUpper (s : String) : String := String.mk (s.data.map Char.toUpper)

/-- JavaScript String.toLowerCase restricted to the ASCII range the code uses. -/
def jsToLower (s : String) : String := String.mk (s.data.map Char.toLower)

/-- JavaScript String.startsWith. -/
def jsStartsWith (s pre : String) : Bool := pre.data.isPrefixOf s.data

/-- Status of a file row in the UI list: the string union type of FileItem.status. -/
inductive FileStatus where
  | pending
  | processing
  | success
  | error
  deriving Repr, DecidableEq

/-- The FileItem interface of App.vue. `path` is the empty string when the item has no
filesystem origin (HTML5 drag-and-drop via processFile sets `path: ''`); `url` is the
object URL of the preview blob when one was created. -/
structure FileItem where
  name : String
  path : String
  size : Nat
  format : String
  status : FileStatus
  compressedSize : Nat
  compressionRatio : Int
  url : Option String
  deriving Repr, DecidableEq

/-- The CompressionSettings interface of App.vue (quality values are JavaScript numbers;
the claims only concern integer ranges, so they are modelled as Int). -/
structure CompressionSettings where
  lossless : Bool
  qualityJpg : Int
  qualityWebp : Int
  qualityPng : Int
  deriving Repr, DecidableEq

/-- The initial value of the `settings` ref in App.vue. -/
def defaultSettings : CompressionSettings :=
  { lossless := false, qualityJpg := 50, qualityWebp := 65, qualityPng := 80 }

/-- A parsed `Part<CompressionSettings>` value restored from localStorage in onMounted:
every field may be absent. -/
structure ParsedSettings where
  lossless : Option Bool := none
  qualityJpg : Option Int := none
  qualityWebp : Option Int := none
  qualityPng : Option Int := none
  deriving Repr, DecidableEq

/-- The onMounted restore step, modelling the object spread
`settings.value = \x7b ...settings.value, ...parsed \x7d`: a field present in the
parsed object overrides the current value, with no validation or clamping. -/
def mergeSettings (cur : CompressionSettings) (p : ParsedSettings) : CompressionSettings :=
  { lossless := p.lossless.getD cur.lossless,
    qualityJpg := p.qualityJpg.getD cur.qualityJpg,
    qualityWebp := p.qualityWebp.getD cur.qualityWebp,
    qualityPng := p.qualityPng.getD cur.qualityPng }

deriving instance DecidableEq for Except

/-- The request object built by buildFileData and sent to the backend inside `fileData`. -/
structure FileData where
  name : String
  data : String
  format : String
  sourceIndex : Nat
  sourcePath : Option String
  deriving Repr, DecidableEq

/-- The full argument record of one `invoke('compress_uploaded_files', ...)` call. -/
structure InvokeArgs where
  fileData : List FileData
  lossless : Bool
  qualityJpg : Int
  qualityWebp : Int
  qualityPng : Int
  preserveExif : Bool
  resizeWidth : Option Int
  resizeHeight : Option Int
  maintainAspectRatio : Option Bool
  outputPath : Option String
  deriving Repr, DecidableEq

/-- One element of the backend result array, the tuple
[string, number, number, string, number]. The frontend destructures
components 1 (originalSize), 2 (compressedSize) and 3 (status). -/
structure BackendResult where
  rname : String
  originalSize : Nat
  compressedSize : Nat
  status : String
  rratio : Int
  deriving Repr, DecidableEq

/-- Oracles for the effectful collaborators of compressImages: `readB64` is
readFile plus btoa at a path, `fetchB64` is the blob fetch plus FileReader
base64 extraction at an object URL, and `backend` is the invoke of
`compress_uploaded_files` for the item at a given list index. An
`Except.error` models a thrown exception or rejected promise. -/
structure Env where
  readB64 : String → Except String String
  fetchB64 : String → Except String String
  backend : Nat → InvokeArgs → Except String (List BackendResult)

/-- The reactive state of the component that compressImages reads and writes. -/
structure AppState where
  files : List FileItem
  settings : CompressionSettings
  outputPath : String
  isCompressing : Bool
  totalProgress : Int
  deriving Repr, DecidableEq

/-- The outcome of one compressImages call: the final state, the list of
backend invocations made (in order), and whether the blocking alert fired. -/
structure RunResult where
  state : AppState
  invocations : List InvokeArgs
  alerted : Bool
  deriving Repr, DecidableEq

/-- The getMimeType helper of App.vue. -/
def getMimeType (fileName : String) : String :=
  let lowerExt := jsToLower ((jsSplit '.' fileName).getLastD "")
  if lowerExt = "png" then "image/png"
  else if lowerExt = "jpg" ∨ lowerExt = "jpeg" then "image/jpeg"
  else if lowerExt = "webp" then "image/webp"
  else ""

/-- The filename derived from a path in addFileByPath:
`filePath.split(sep).pop() or "unknown"` where the fallback fires when the
last segment is the empty string. -/
def fileNameOf (filePath : String) : String :=
  let n := (jsSplit '/' filePath).getLastD ""
  if n = "" then "unknown" else n

/-- The format tag derived from a filename in addFileByPath: the uppercased
last dot-separated segment, or "UNKNOWN" when that segment is empty. -/
def formatOf (fileName : String) : String :=
  let e := (jsSplit '.' fileName).getLastD ""
  if e = "" then "UNKNOWN" else jsToUpper e

/-- The extension whitelist of addFileByPath. -/
def allowedFormats : List String := ["PNG", "JPG", "JPEG", "WEBP"]

/-- The addFileByPath function of App.vue. The stat oracle returns the file
size on success and none when stat or readFile throws (the catch branch
leaves the list unchanged). Object URLs are opaque; the preview URL is
modelled as the path tagged with a blob scheme. -/
def addFileByPath (stat : String → Option Nat) (files : List FileItem)
    (filePath : String) : List FileItem :=
  let fileName := fileNameOf filePath
  let format := formatOf fileName
  if ¬ allowedFormats.contains format then files
  else if files.any (fun f => f.path == filePath) then files
  else
    match stat filePath with
    | none => files
    | some size =>
      files ++ [{ name := fileName, path := filePath, size := size, format := format,
                  status := FileStatus.pending, compressedSize := 0, compressionRatio := 0,
                  url := some ("blob:" ++ filePath) }]

/-- Importing a list of paths by repeated addFileByPath, as the drag-drop
handler and selectFiles loops do. -/
def importPaths (stat : String → Option Nat) (paths : List String) : List FileItem :=
  paths.foldl (addFileByPath stat) []

/-- The buildFileData function of App.vue: an item with a filesystem path is
read from disk; otherwise an item with a blob preview URL is fetched; a
memory-only item with neither yields null (none). Exceptions from the read
or fetch propagate to the caller. -/
def buildFileData (env : Env) (f : FileItem) (index : Nat) :
    Except String (Option FileData) :=
  if f.path ≠ "" then
    match env.readB64 f.path with
    | Except.error e => Except.error e
    | Except.ok b64 =>
      Except.ok (some { name := f.name, data := b64, format := jsToLower f.format,
                        sourceIndex := index,
                        sourcePath := if f.path = "" then none else some f.path })
  else
    match f.url with
    | some u =>
      if jsStartsWith u "blob:" then
        match env.fetchB64 u with
        | Except.error e => Except.error e
        | Except.ok b64 =>
          Except.ok (some { name := f.name, data := b64, format := jsToLower f.format,
                            sourceIndex := index,
                            sourcePath := if f.path = "" then none else some f.path })
      else Except.ok none
    | none => Except.ok none

/-- The argument record passed to invoke for one item: the settings fields
are read from the shared settings state, preserveExif is the literal true,
the resize fields are the literal undefined, and outputPath is
`outputPath.value or undefined`. -/
def mkInvokeArgs (st : CompressionSettings) (out : String) (fd : FileData) : InvokeArgs :=
  { fileData := [fd],
    lossless := st.lossless,
    qualityJpg := st.qualityJpg,
    qualityWebp := st.qualityWebp,
    qualityPng := st.qualityPng,
    preserveExif := true,
    resizeWidth := none,
    resizeHeight := none,
    maintainAspectRatio := none,
    outputPath := if out = "" then none else some out }

/-- The body of one iteration of the compressImages loop for the file at a
given index: build the request, invoke the backend, and update the row from
the first result. Any exception is caught at this item boundary and marks
the row error. Returns the updated row and the invocation made, if any. -/
def processItem (env : Env) (st : CompressionSettings) (out : String)
    (i : Nat) (f : FileItem) : FileItem × Option InvokeArgs :=
  match buildFileData env f i with
  | Except.error _ => ({ f with status := FileStatus.error }, none)
  | Except.ok none => ({ f with status := FileStatus.error }, none)
  | Except.ok (some fd) =>
    let args := mkInvokeArgs st out fd
    match env.backend i args with
    | Except.error _ => ({ f with status := FileStatus.error }, some args)
    | Except.ok results =>
      match results.head? with
      | none => ({ f with status := FileStatus.error }, some args)
      | some r =>
        if r.status = "success" then
          ({ f with status := FileStatus.success,
                    compressedSize := r.compressedSize,
                    compressionRatio :=
                      jsRound ((1 - (r.compressedSize : ℚ) / (r.originalSize : ℚ)) * 100) },
           some args)
        else ({ f with status := FileStatus.error }, some args)

/-- The compressImages loop from list position i onward, collecting the
updated rows and the invocations made. -/
def processFrom (env : Env) (st : CompressionSettings) (out : String) :
    Nat → List FileItem → List FileItem × List InvokeArgs
  | _, [] => ([], [])
  | i, f :: rest =>
    let step := processItem env st out i f
    let tail := processFrom env st out (i + 1) rest
    (step.1 :: tail.1, step.2.toList ++ tail.2)

/-- The compressImages function of App.vue: empty list returns at once; with
no output directory and some item lacking a source path the user is alerted
and nothing runs; otherwise every row is set processing and the loop runs
over all rows, ending with isCompressing false and progress 100. -/
def compressImages (env : Env) (s : AppState) : RunResult :=
  if s.files = [] then { state := s, invocations := [], alerted := false }
  else if s.outputPath = "" ∧ s.files.any (fun f => f.path == "") then
    { state := s, invocations := [], alerted := true }
  else
    let files1 := s.files.map (fun f => { f with status := FileStatus.processing })
    let res := processFrom env s.settings s.outputPath 0 files1
    { state := { s with files := res.1, isCompressing := false, totalProgress := 100 },
      invocations := res.2,
      alerted := false }

/-- The totalSavingsPercent computed property of App.vue. -/
def totalSavingsPercent (files : List FileItem) : String :=
  let original : Nat := files.foldl (fun sum f => sum + f.size) 0
  let compressed : Nat := files.foldl (fun sum f => sum + f.compressedSize) 0
  if original = 0 then "0%"
  else
    let percent := jsRound (((original : ℚ) - (compressed : ℚ)) / (original : ℚ) * 100)
    toString percent ++ "%"

/-- Every branch of processItem leaves the row with a terminal status. -/
theorem processItem_status_terminal (env : Env) (st : CompressionSettings) (out : String)
    (i : Nat) (f : FileItem) :
    (processItem env st out i f).1.status = FileStatus.success ∨
    (processItem env st out i f).1.status = FileStatus.error := by
  unfold processItem
  split
  · simp
  · simp
  · dsimp only
    split
    · simp
    · split
      · simp
      · split <;> simp

/-- If processItem does not end the row in success, the row is the input row
with only the status changed to error: compressedSize and compressionRatio
are untouched. -/
theorem processItem_not_success (env : Env) (st : CompressionSettings) (out : String)
    (i : Nat) (f : FileItem)
    (h : (processItem env st out i f).1.status ≠ FileStatus.success) :
    (processItem env st out i f).1 = { f with status := FileStatus.error } := by
  revert h
  unfold processItem
  split
  · simp
  · simp
  · dsimp only
    split
    · simp
    · split
      · simp
      · split
        · intro h; exact absurd rfl h
        · simp

/-- An invocation recorded by processItem is mkInvokeArgs applied to the
request that buildFileData produced for this row. -/
theorem processItem_inv (env : Env) (st : CompressionSettings) (out : String)
    (i : Nat) (f : FileItem) (inv : InvokeArgs)
    (h : (processItem env st out i f).2 = some inv) :
    ∃ fd, buildFileData env f i = Except.ok (some fd) ∧ inv = mkInvokeArgs st out fd := by
  revert h
  unfold processItem
  split
  · simp
  · simp
  next fd heq =>
    refine fun h => ⟨fd, heq, ?_⟩
    revert h
    dsimp only
    split
    · simp
      intro h
      exact h.symm
    · split
      · simp
        intro h
        exact h.symm
      · split <;> (simp; intro h; exact h.symm)

/-- A successful request always carries the lowercased format tag of its row. -/
theorem buildFileData_format (env : Env) (f : FileItem) (i : Nat) (fd : FileData)
    (h : buildFileData env f i = Except.ok (some fd)) :
    fd.format = jsToLower f.format := by
  revert h
  unfold buildFileData
  split
  · split
    · simp
    · simp
      intro h
      rw [← h]
  · split
    · split
      · split
        · simp
        · simp
          intro h
          rw [← h]
      · simp
    · simp

/-- processFrom yields one output row per input row. -/
theorem processFrom_length (env : Env) (st : CompressionSettings) (out : String) :
    ∀ (fs : List FileItem) (i : Nat), (processFrom env st out i fs).1.length = fs.length
  | [], _ => rfl
  | f :: rest, i => by
    simp only [processFrom, List.length_cons]
    rw [processFrom_length env st out rest (i + 1)]

/-- Every row coming out of processFrom has a terminal status. -/
theorem processFrom_status (env : Env) (st : CompressionSettings) (out : String) :
    ∀ (fs : List FileItem) (i : Nat) (g : FileItem),
      g ∈ (processFrom env st out i fs).1 →
      g.status = FileStatus.success ∨ g.status = FileStatus.error
  | [], _, g, h => by simp [processFrom] at h
  | f :: rest, i, g, h => by
    simp only [processFrom, List.mem_cons] at h
    rcases h with h | h
    · rw [h]
      exact processItem_status_terminal env st out i f
    · exact processFrom_status env st out rest (i + 1) g h

/-- Every invocation collected by processFrom is mkInvokeArgs over the shared
settings and output path, applied to a request built from one of the rows. -/
theorem processFrom_inv_mem (env : Env) (st : CompressionSettings) (out : String) :
    ∀ (fs : List FileItem) (i : Nat) (inv : InvokeArgs),
      inv ∈ (processFrom env st out i fs).2 →
      ∃ f, f ∈ fs ∧ ∃ j fd,
        buildFileData env f j = Except.ok (some fd) ∧ inv = mkInvokeArgs st out fd
  | [], _, inv, h => by simp [processFrom] at h
  | f :: rest, i, inv, h => by
    simp only [processFrom, List.mem_append, Option.mem_toList, Option.mem_def] at h
    rcases h with h | h
    · obtain ⟨fd, hbf, hinv⟩ := processItem_inv env st out i f inv h
      exact ⟨f, List.mem_cons_self f rest, i, fd, hbf, hinv⟩
    · obtain ⟨g, hg, j, fd, hbf, hinv⟩ := processFrom_inv_mem env st out rest (i + 1) inv h
      exact ⟨g, List.mem_cons_of_mem f hg, j, fd, hbf, hinv⟩

/-- A row that processFrom leaves in error keeps the compressedSize it had
before the batch (the loop is started on the rows remapped to processing). -/
theorem processFrom_error_size (env : Env) (st : CompressionSettings) (out : String) :
    ∀ (fs : List FileItem) (i : Nat) (a b : FileItem),
      (a, b) ∈ fs.zip (processFrom env st out i
        (fs.map (fun f => { f with status := FileStatus.processing }))).1 →
      b.status = FileStatus.error →
      b.compressedSize = a.compressedSize
  | [], _, a, b, h, _ => by simp [processFrom] at h
  | f :: rest, i, a, b, h, herr => by
    simp only [List.map_cons, processFrom, List.zip_cons_cons, List.mem_cons] at h
    rcases h with h | h
    · rw [Prod.mk.injEq] at h
      obtain ⟨rfl, rfl⟩ := h
      have hns : (processItem env st out i
          { a with status := FileStatus.processing }).1.status ≠ FileStatus.success := by
        rw [herr]; intro hcon; cases hcon
      rw [processItem_not_success env st out i _ hns]
    · exact processFrom_error_size env st out rest (i + 1) a b h herr

/-- Unfolding of compressImages on a batch that passes both guards. -/
theorem compressImages_run (env : Env) (s : AppState)
    (h1 : s.files ≠ [])
    (h2 : ¬ (s.outputPath = "" ∧ s.files.any (fun f => f.path == "") = true)) :
    compressImages env s =
      { state := { s with
          files := (processFrom env s.settings s.outputPath 0
            (s.files.map (fun f => { f with status := FileStatus.processing }))).1,
          isCompressing := false, totalProgress := 100 },
        invocations := (processFrom env s.settings s.outputPath 0
          (s.files.map (fun f => { f with status := FileStatus.processing }))).2,
        alerted := false } := by
  unfold compressImages
  rw [if_neg h1, if_neg h2]

/-- Every invocation made by a compressImages run is mkInvokeArgs over the
settings and output path of the state at entry, applied to a request built
from one of the rows of the batch. -/
theorem compressImages_inv_mem (env : Env) (s : AppState) (inv : InvokeArgs)
    (h : inv ∈ (compressImages env s).invocations) :
    ∃ f, f ∈ s.files ∧ ∃ j fd,
      buildFileData env { f with status := FileStatus.processing } j = Except.ok (some fd) ∧
      inv = mkInvokeArgs s.settings s.outputPath fd := by
  by_cases h1 : s.files = []
  · rw [compressImages, if_pos h1] at h
    simp at h
  by_cases h2 : s.outputPath = "" ∧ s.files.any (fun f => f.path == "") = true
  · rw [compressImages, if_neg h1, if_pos h2] at h
    simp at h
  · rw [compressImages_run env s h1 h2] at h
    obtain ⟨g, hg, j, fd, hbf, hinv⟩ :=
      processFrom_inv_mem env s.settings s.outputPath _ 0 inv h
    rw [List.mem_map] at hg
    obtain ⟨f0, hf0, rfl⟩ := hg
    exact ⟨f0, hf0, j, fd, hbf, hinv⟩

/-- addFileByPath only ever appends rows whose format tag passed the
whitelist check. -/
theorem addFileByPath_formats (stat : String → Option Nat) (files : List FileItem)
    (p : String) (hf : ∀ f, f ∈ files → f.format ∈ allowedFormats) :
    ∀ f, f ∈ addFileByPath stat files p → f.format ∈ allowedFormats := by
  simp only [addFileByPath]
  split
  · exact hf
  next hfmt =>
    split
    · exact hf
    · split
      · exact hf
      · intro f hmem
        rw [List.mem_append] at hmem
        rcases hmem with h | h
        · exact hf f h
        · simp only [List.mem_singleton] at h
          subst h
          have hc : allowedFormats.contains (formatOf (fileNameOf p)) = true := by
            by_contra hc
            exact hfmt (by simpa using hc)
          exact List.mem_of_elem_eq_true hc

/-- Every row of a file list imported purely through addFileByPath carries a
whitelisted format tag. -/
theorem importPaths_formats (stat : String → Option Nat) :
    ∀ (paths : List String) (files : List FileItem),
      (∀ f, f ∈ files → f.format ∈ allowedFormats) →
      ∀ f, f ∈ paths.foldl (addFileByPath stat) files → f.format ∈ allowedFormats
  | [], files, hf => hf
  | p :: ps, files, hf => by
    simp only [List.foldl_cons]
    exact importPaths_formats stat ps (addFileByPath stat files p)
      (addFileByPath_formats stat files p hf)

/-- C1: within one run of compressImages, every backend invocation passes the
same lossless, qualityJpg, qualityWebp and qualityPng values as every other
invocation of that run. -/
theorem C1_settings_uniform (env : Env) (s : AppState) (a b : InvokeArgs)
    (ha : a ∈ (compressImages env s).invocations)
    (hb : b ∈ (compressImages env s).invocations) :
    a.lossless = b.lossless ∧ a.qualityJpg = b.qualityJpg ∧
    a.qualityWebp = b.qualityWebp ∧ a.qualityPng = b.qualityPng := by
  obtain ⟨_, _, _, fda, _, rfl⟩ := compressImages_inv_mem env s a ha
  obtain ⟨_, _, _, fdb, _, rfl⟩ := compressImages_inv_mem env s b hb
  simp [mkInvokeArgs]

/-- C2: with no output directory set and at least one file lacking a source
path, compressImages alerts, makes no backend invocation, and leaves the
whole state, in particular every file status, unchanged. -/
theorem C2_guard_blocks (env : Env) (s : AppState)
    (hout : s.outputPath = "")
    (hmiss : ∃ f, f ∈ s.files ∧ f.path = "") :
    compressImages env s = { state := s, invocations := [], alerted := true } := by
  obtain ⟨f, hf, hp⟩ := hmiss
  have hne : s.files ≠ [] := by
    intro h
    rw [h] at hf
    simp at hf
  have hany : s.files.any (fun g => g.path == "") = true :=
    List.any_eq_true.mpr ⟨f, hf, by simp [hp]⟩
  rw [compressImages, if_neg hne, if_pos ⟨hout, hany⟩]

/-- C4: a batch that passes the guards processes every file, one result row
per input row, and every row ends in a terminal status, success or error,
whatever exceptions the per-item oracles throw. -/
theorem C4_failure_isolation (env : Env) (s : AppState)
    (h1 : s.files ≠ [])
    (h2 : ¬ (s.outputPath = "" ∧ s.files.any (fun f => f.path == "") = true)) :
    (compressImages env s).state.files.length = s.files.length ∧
    ∀ f, f ∈ (compressImages env s).state.files →
      f.status = FileStatus.success ∨ f.status = FileStatus.error := by
  rw [compressImages_run env s h1 h2]
  constructor
  · rw [processFrom_length, List.length_map]
  · intro f hf
    exact processFrom_status env s.settings s.outputPath _ 0 f hf

/-- C10: every backend invocation of compressImages passes preserveExif as
the constant true. -/
theorem C10_preserveExif (env : Env) (s : AppState) (inv : InvokeArgs)
    (h : inv ∈ (compressImages env s).invocations) :
    inv.preserveExif = true := by
  obtain ⟨_, _, _, fd, _, rfl⟩ := compressImages_inv_mem env s inv h
  rfl

/-- C3 (amended): every request built by compressImages from a batch whose
rows were all imported by path (addFileByPath) carries a lowercased format
tag among png, jpg, jpeg, webp. -/
theorem C3_path_import_formats (stat : String → Option Nat) (paths : List String)
    (env : Env) (s : AppState) (inv : InvokeArgs) (fd : FileData)
    (hfiles : s.files = importPaths stat paths)
    (hinv : inv ∈ (compressImages env s).invocations)
    (hfd : fd ∈ inv.fileData) :
    fd.format ∈ (["png", "jpg", "jpeg", "webp"] : List String) := by
  obtain ⟨f, hf, j, fd0, hbf, rfl⟩ := compressImages_inv_mem env s inv hinv
  simp only [mkInvokeArgs, List.mem_singleton] at hfd
  subst hfd
  have hfmt : fd.format = jsToLower f.format := buildFileData_format env _ j fd hbf
  have hmem : f.format ∈ allowedFormats := by
    rw [hfiles] at hf
    exact importPaths_formats stat paths [] (by simp) f hf
  simp only [allowedFormats, List.mem_cons, List.mem_singleton, List.not_mem_nil,
    or_false] at hmem
  rcases hmem with h | h | h | h <;> rw [h] at hfmt <;> rw [hfmt] <;> decide

/-- C5: when the backend result for an item reports success, the row ratio is
set to Math.round of (1 - compressedSize/originalSize) * 100, and a row that
does not end in success keeps its previous ratio, so the ratio is assigned
in the success case only. -/
theorem C5_ratio_rule (env : Env) (st : CompressionSettings) (out : String)
    (i : Nat) (f : FileItem) (fd : FileData) (r : BackendResult) (rs : List BackendResult)
    (hbf : buildFileData env f i = Except.ok (some fd))
    (hbk : env.backend i (mkInvokeArgs st out fd) = Except.ok (r :: rs)) :
    (r.status = "success" → r.originalSize ≠ 0 →
      (processItem env st out i f).1.status = FileStatus.success ∧
      (processItem env st out i f).1.compressionRatio =
        jsRound ((1 - (r.compressedSize : ℚ) / (r.originalSize : ℚ)) * 100)) ∧
    ((processItem env st out i f).1.status ≠ FileStatus.success →
      (processItem env st out i f).1.compressionRatio = f.compressionRatio) := by
  constructor
  · intro hs _
    unfold processItem
    rw [hbf]
    dsimp only
    rw [hbk]
    simp [hs]
  · intro hns
    rw [processItem_not_success env st out i f hns]

/-- Membership in the zip of a list with itself forces the two components equal. -/
theorem zip_self_mem_eq {A : Type} : ∀ (l : List A) (a b : A), (a, b) ∈ l.zip l → a = b
  | [], _, _, h => by simp at h
  | x :: xs, a, b, h => by
    simp only [List.zip_cons_cons, List.mem_cons] at h
    rcases h with h | h
    · rw [Prod.mk.injEq] at h
      exact h.1.trans h.2.symm
    · exact zip_self_mem_eq xs a b h

/-- C6 (amended): a file whose row ends a compressImages run in error keeps
the compressedSize it had before the run; in particular it stays 0 only for
files that never succeeded, and a file that succeeded in an earlier run
keeps that earlier compressed size, not 0. -/
theorem C6_error_keeps_size (env : Env) (s : AppState) (a b : FileItem)
    (h : (a, b) ∈ s.files.zip (compressImages env s).state.files)
    (herr : b.status = FileStatus.error) :
    b.compressedSize = a.compressedSize := by
  by_cases h1 : s.files = []
  · rw [compressImages, if_pos h1, h1] at h
    simp at h
  by_cases h2 : s.outputPath = "" ∧ s.files.any (fun f => f.path == "") = true
  · rw [compressImages, if_neg h1, if_pos h2] at h
    rw [zip_self_mem_eq s.files a b h]
  · rw [compressImages_run env s h1 h2] at h
    exact processFrom_error_size env s.settings s.outputPath s.files 0 a b h herr

/-- C7 (amended): every backend invocation passes exactly the quality values
of the shared settings state, so whenever that state is within [10,100] on
all three qualities, so is every invocation; the storage-restore path merges
persisted values without validation, so the range is a precondition on the
state, not unconditional. -/
theorem C7_quality_passthrough (env : Env) (s : AppState) (inv : InvokeArgs)
    (h : inv ∈ (compressImages env s).invocations) :
    (inv.qualityJpg = s.settings.qualityJpg ∧
     inv.qualityWebp = s.settings.qualityWebp ∧
     inv.qualityPng = s.settings.qualityPng) ∧
    ((10 ≤ s.settings.qualityJpg ∧ s.settings.qualityJpg ≤ 100 ∧
      10 ≤ s.settings.qualityWebp ∧ s.settings.qualityWebp ≤ 100 ∧
      10 ≤ s.settings.qualityPng ∧ s.settings.qualityPng ≤ 100) →
     (10 ≤ inv.qualityJpg ∧ inv.qualityJpg ≤ 100 ∧
      10 ≤ inv.qualityWebp ∧ inv.qualityWebp ≤ 100 ∧
      10 ≤ inv.qualityPng ∧ inv.qualityPng ≤ 100)) := by
  obtain ⟨_, _, _, fd, _, rfl⟩ := compressImages_inv_mem env s inv h
  exact ⟨⟨rfl, rfl, rfl⟩, fun hr => hr⟩

/-- C8: totalSavingsPercent returns the string 0% whenever the total original
size is zero, in particular for the empty list, and otherwise returns the
rounded percentage of (originalTotal - compressedTotal) / originalTotal * 100
followed by a percent sign, never dividing by zero. -/
theorem C8_savings_percent (files : List FileItem) :
    (totalSavingsPercent [] = "0%") ∧
    (files.foldl (fun sum f => sum + f.size) 0 = 0 →
      totalSavingsPercent files = "0%") ∧
    (files.foldl (fun sum f => sum + f.size) 0 ≠ 0 →
      totalSavingsPercent files =
        toString (jsRound
          ((((files.foldl (fun sum f => sum + f.size) 0 : Nat) : ℚ) -
            ((files.foldl (fun sum f => sum + f.compressedSize) 0 : Nat) : ℚ)) /
            ((files.foldl (fun sum f => sum + f.size) 0 : Nat) : ℚ) * 100)) ++ "%") := by
  refine ⟨rfl, fun h => ?_, fun h => ?_⟩
  · simp only [totalSavingsPercent]
    rw [if_pos h]
  · simp only [totalSavingsPercent]
    rw [if_neg h]

/-- C9: addFileByPath leaves the list unchanged when the path is already
present or the extension is not whitelisted, and it preserves distinctness
of the paths of the path-imported rows (the rows with a nonempty path). -/
theorem C9_addFileByPath_idempotent :
    (∀ (stat : String → Option Nat) (files : List FileItem) (p : String),
      (∃ f, f ∈ files ∧ f.path = p) → addFileByPath stat files p = files) ∧
    (∀ (stat : String → Option Nat) (files : List FileItem) (p : String),
      formatOf (fileNameOf p) ∉ allowedFormats → addFileByPath stat files p = files) ∧
    (∀ (stat : String → Option Nat) (files : List FileItem) (p : String),
      ((files.filter (fun f => f.path != "")).map (fun f => f.path)).Nodup →
      (((addFileByPath stat files p).filter (fun f => f.path != "")).map
        (fun f => f.path)).Nodup) := by
  refine ⟨?_, ?_, ?_⟩
  · rintro stat files p ⟨f, hf, hp⟩
    simp only [addFileByPath]
    split
    · rfl
    · rw [if_pos (List.any_eq_true.mpr ⟨f, hf, by simp [hp]⟩)]
  · intro stat files p hfmt
    have hc : allowedFormats.contains (formatOf (fileNameOf p)) = false := by
      by_contra hc
      exact hfmt (List.mem_of_elem_eq_true (Bool.of_not_eq_false hc))
    have hcp : ¬ (allowedFormats.contains (formatOf (fileNameOf p)) = true) := by
      rw [hc]
      exact Bool.false_ne_true
    simp only [addFileByPath]
    rw [if_pos hcp]
  · intro stat files p hnd
    simp only [addFileByPath]
    split
    · exact hnd
    · split
      · exact hnd
      next hdup =>
        rcases hstat : stat p with _ | size
        · exact hnd
        · dsimp only
          rw [List.filter_append, List.map_append]
          by_cases hp : p = ""
          · subst hp
            simp [hnd]
          · have hpb : (p != "") = true := by simpa using hp
            have hfilter : (List.filter (fun f => f.path != "")
                [({ name := fileNameOf p, path := p, size := size,
                    format := formatOf (fileNameOf p),
                    status := FileStatus.pending, compressedSize := 0, compressionRatio := 0,
                    url := some ("blob:" ++ p) } : FileItem)]).map (fun f => f.path) = [p] := by
              simp [List.filter_cons, hpb]
            rw [hfilter]
            apply List.Nodup.append hnd (List.nodup_singleton p)
            intro x hx hx2
            rw [List.mem_singleton] at hx2
            rw [List.mem_map] at hx
            obtain ⟨g, hg, hgp⟩ := hx
            rw [List.mem_filter] at hg
            have hnp : ∀ f, f ∈ files → ¬ (f.path == p) = true := by
              intro f hf hfp
              exact hdup (List.any_eq_true.mpr ⟨f, hf, hfp⟩)
            exact hnp g hg.1 (by simp [hgp.trans hx2])

/-- A stat oracle that reports size 1000 for every path. -/
def statW : String → Option Nat := fun _ => some 1000

/-- A file row as produced by addFileByPath for /pics/a.jpg. -/
def fileJpg : FileItem :=
  { name := "a.jpg", path := "/pics/a.jpg", size := 1000, format := "JPG",
    status := FileStatus.pending, compressedSize := 0, compressionRatio := 0,
    url := some "blob:/pics/a.jpg" }

/-- A file row as produced by addFileByPath for /pics/b.png. -/
def filePng : FileItem :=
  { name := "b.png", path := "/pics/b.png", size := 2000, format := "PNG",
    status := FileStatus.pending, compressedSize := 0, compressionRatio := 0,
    url := some "blob:/pics/b.png" }

/-- A file row produced by the HTML5 drop path (processFile): no source path. -/
def fileDrop : FileItem :=
  { name := "c.png", path := "", size := 500, format := "PNG",
    status := FileStatus.pending, compressedSize := 0, compressionRatio := 0,
    url := some "blob:drop" }

/-- A file row that succeeded in an earlier batch: compressedSize 500. -/
def filePrev : FileItem :=
  { name := "b.png", path := "/pics/b.png", size := 2000, format := "PNG",
    status := FileStatus.success, compressedSize := 500, compressionRatio := 75,
    url := none }

/-- An environment whose backend always answers with an error-status result. -/
def envErr : Env :=
  { readB64 := fun _ => Except.ok "QUJD",
    fetchB64 := fun _ => Except.ok "QUJD",
    backend := fun _ _ => Except.ok
      [{ rname := "r", originalSize := 1000, compressedSize := 0,
         status := "error", rratio := 0 }] }

/-- The backend result used by the success-path scenarios. -/
def resultOk : BackendResult :=
  { rname := "a.jpg", originalSize := 1000, compressedSize := 400,
    status := "success", rratio := 60 }

/-- An environment whose backend always answers with one success result. -/
def envOk : Env :=
  { readB64 := fun _ => Except.ok "QUJD",
    fetchB64 := fun _ => Except.ok "QUJD",
    backend := fun _ _ => Except.ok [resultOk] }

/-- The request buildFileData produces for fileJpg at index 0 under envOk or envErr. -/
def fdJpg : FileData :=
  { name := "a.jpg", data := "QUJD", format := "jpg", sourceIndex := 0,
    sourcePath := some "/pics/a.jpg" }

/-- A state with two path-backed files and an output directory chosen. -/
def stateTwo : AppState :=
  { files := [fileJpg, filePng], settings := defaultSettings, outputPath := "/out",
    isCompressing := false, totalProgress := 0 }

/-- A state with one drag-dropped file (no path) and no output directory. -/
def stateDrop : AppState :=
  { files := [fileDrop], settings := defaultSettings, outputPath := "",
    isCompressing := false, totalProgress := 0 }

/-- A state holding one file that succeeded in an earlier batch. -/
def statePrev : AppState :=
  { files := [filePrev], settings := defaultSettings, outputPath := "",
    isCompressing := false, totalProgress := 0 }

/-- The settings state after restoring a persisted object with qualityJpg 5. -/
def settingsBad : CompressionSettings :=
  mergeSettings defaultSettings { qualityJpg := some 5 }

/-- A state carrying the unvalidated restored settings. -/
def stateBad : AppState :=
  { files := [fileJpg], settings := settingsBad, outputPath := "/out",
    isCompressing := false, totalProgress := 0 }

/-- A state whose file list was imported entirely through addFileByPath. -/
def stateImport : AppState :=
  { files := importPaths statW ["/pics/a.jpg"], settings := defaultSettings,
    outputPath := "/out", isCompressing := false, totalProgress := 0 }

/-- Fallback request for getD on request lists. -/
def fallbackFd : FileData :=
  { name := "", data := "", format := "", sourceIndex := 0, sourcePath := none }

/-- Fallback invocation record for getD on invocation lists. -/
def fallbackArgs : InvokeArgs := mkInvokeArgs defaultSettings "" fallbackFd

/-- The first invocation of the stateTwo run under envErr. -/
def invW0 : InvokeArgs := (compressImages envErr stateTwo).invocations.getD 0 fallbackArgs

/-- The second invocation of the stateTwo run under envErr. -/
def invW1 : InvokeArgs := (compressImages envErr stateTwo).invocations.getD 1 fallbackArgs

/-- The single invocation of the stateImport run under envErr. -/
def invI : InvokeArgs := (compressImages envErr stateImport).invocations.getD 0 fallbackArgs

/-- The single request inside invI. -/
def fdI : FileData := invI.fileData.getD 0 fallbackFd

/-- The row of statePrev after the envErr run. -/
def errRow : FileItem := (compressImages envErr statePrev).state.files.getD 0 filePrev

/-- Witness for C1 at a concrete two-file batch: two invocations occur and
carry equal settings fields. -/
theorem C1_settings_uniform_witness :
    invW0 ∈ (compressImages envErr stateTwo).invocations ∧
    invW1 ∈ (compressImages envErr stateTwo).invocations ∧
    (invW0.lossless = invW1.lossless ∧ invW0.qualityJpg = invW1.qualityJpg ∧
     invW0.qualityWebp = invW1.qualityWebp ∧ invW0.qualityPng = invW1.qualityPng) :=
  ⟨by decide, by decide,
   C1_settings_uniform envErr stateTwo invW0 invW1 (by decide) (by decide)⟩

/-- Witness for C2 at a concrete dropped-file batch with no output directory. -/
theorem C2_guard_blocks_witness :
    stateDrop.outputPath = "" ∧ (∃ f, f ∈ stateDrop.files ∧ f.path = "") ∧
    compressImages envErr stateDrop =
      { state := stateDrop, invocations := [], alerted := true } :=
  ⟨rfl, by decide, C2_guard_blocks envErr stateDrop rfl (by decide)⟩

/-- Witness for C4 at a concrete two-file batch. -/
theorem C4_failure_isolation_witness :
    stateTwo.files ≠ [] ∧
    ¬ (stateTwo.outputPath = "" ∧ stateTwo.files.any (fun f => f.path == "") = true) ∧
    ((compressImages envErr stateTwo).state.files.length = stateTwo.files.length ∧
     ∀ f, f ∈ (compressImages envErr stateTwo).state.files →
       f.status = FileStatus.success ∨ f.status = FileStatus.error) :=
  ⟨by decide, by decide, C4_failure_isolation envErr stateTwo (by decide) (by decide)⟩

/-- Witness for C10 at a concrete invocation. -/
theorem C10_preserveExif_witness :
    invW0 ∈ (compressImages envErr stateTwo).invocations ∧ invW0.preserveExif = true :=
  ⟨by decide, C10_preserveExif envErr stateTwo invW0 (by decide)⟩

/-- Counterexample to C3 as stated: the batch built from the path-imported
file /pics/a.jpg submits a request whose format tag is jpg, which is not
among the three tags jpeg, png, webp. -/
theorem C3_counterexample :
    (compressImages envErr stateImport).invocations.map
      (fun inv => inv.fileData.map (fun fd => fd.format)) = [["jpg"]] ∧
    "jpg" ∉ (["jpeg", "png", "webp"] : List String) :=
  ⟨by decide, by decide⟩

/-- Witness for the amended C3 at the concrete imported batch. -/
theorem C3_path_import_formats_witness :
    stateImport.files = importPaths statW ["/pics/a.jpg"] ∧
    invI ∈ (compressImages envErr stateImport).invocations ∧
    fdI ∈ invI.fileData ∧
    fdI.format ∈ (["png", "jpg", "jpeg", "webp"] : List String) :=
  ⟨rfl, by decide, by decide,
   C3_path_import_formats statW ["/pics/a.jpg"] envErr stateImport invI fdI rfl
     (by decide) (by decide)⟩

/-- Witness for C5 at a concrete success result of 400 bytes from 1000. -/
theorem C5_ratio_rule_witness :
    buildFileData envOk fileJpg 0 = Except.ok (some fdJpg) ∧
    envOk.backend 0 (mkInvokeArgs defaultSettings "/out" fdJpg) = Except.ok [resultOk] ∧
    resultOk.status = "success" ∧ resultOk.originalSize ≠ 0 ∧
    ((processItem envOk defaultSettings "/out" 0 fileJpg).1.status = FileStatus.success ∧
     (processItem envOk defaultSettings "/out" 0 fileJpg).1.compressionRatio =
       jsRound ((1 - (resultOk.compressedSize : ℚ) / (resultOk.originalSize : ℚ)) * 100)) :=
  ⟨by decide, rfl, rfl, by decide,
   (C5_ratio_rule envOk defaultSettings "/out" 0 fileJpg fdJpg resultOk []
     (by decide) rfl).1 rfl (by decide)⟩

/-- Counterexample to C6 as stated: a file that succeeded in an earlier run
with compressedSize 500 fails in the next run and still reports 500, not 0. -/
theorem C6_counterexample :
    (compressImages envErr statePrev).state.files.map
      (fun f => (f.status, f.compressedSize)) = [(FileStatus.error, 500)] ∧
    (500 : Nat) ≠ 0 :=
  ⟨by decide, by decide⟩

/-- Witness for the amended C6 at the same scenario. -/
theorem C6_error_keeps_size_witness :
    (filePrev, errRow) ∈ statePrev.files.zip (compressImages envErr statePrev).state.files ∧
    errRow.status = FileStatus.error ∧
    errRow.compressedSize = filePrev.compressedSize :=
  ⟨by decide, by decide,
   C6_error_keeps_size envErr statePrev filePrev errRow (by decide) (by decide)⟩

/-- Counterexample to C7 as stated: settings restored from storage are merged
without validation, and a persisted qualityJpg of 5 is passed straight to the
backend, outside [10,100]. -/
theorem C7_counterexample :
    settingsBad = mergeSettings defaultSettings { qualityJpg := some 5 } ∧
    (compressImages envErr stateBad).invocations.map (fun inv => inv.qualityJpg) = [5] ∧
    ¬ (10 ≤ (5 : Int)) :=
  ⟨rfl, by decide, by decide⟩

/-- Witness for the amended C7 at a concrete in-range state. -/
theorem C7_quality_passthrough_witness :
    invW0 ∈ (compressImages envErr stateTwo).invocations ∧
    ((invW0.qualityJpg = stateTwo.settings.qualityJpg ∧
      invW0.qualityWebp = stateTwo.settings.qualityWebp ∧
      invW0.qualityPng = stateTwo.settings.qualityPng) ∧
     (10 ≤ invW0.qualityJpg ∧ invW0.qualityJpg ≤ 100 ∧
      10 ≤ invW0.qualityWebp ∧ invW0.qualityWebp ≤ 100 ∧
      10 ≤ invW0.qualityPng ∧ invW0.qualityPng ≤ 100)) :=
  ⟨by decide,
   (C7_quality_passthrough envErr stateTwo invW0 (by decide)).1,
   (C7_quality_passthrough envErr stateTwo invW0 (by decide)).2 (by decide)⟩

/-- Witness for C8 at a concrete nonempty list. -/
theorem C8_savings_percent_witness :
    ([fileJpg].foldl (fun sum f => sum + f.size) 0 ≠ 0) ∧
    totalSavingsPercent [fileJpg] =
      toString (jsRound
        (((([fileJpg].foldl (fun sum f => sum + f.size) 0 : Nat) : ℚ) -
          (([fileJpg].foldl (fun sum f => sum + f.compressedSize) 0 : Nat) : ℚ)) /
          (([fileJpg].foldl (fun sum f => sum + f.size) 0 : Nat) : ℚ) * 100)) ++ "%" :=
  ⟨by decide, (C8_savings_percent [fileJpg]).2.2 (by decide)⟩

/-- Witness for C9 at concrete duplicate, invalid-extension and fresh inputs. -/
theorem C9_addFileByPath_idempotent_witness :
    (∃ f, f ∈ [fileJpg] ∧ f.path = "/pics/a.jpg") ∧
    addFileByPath statW [fileJpg] "/pics/a.jpg" = [fileJpg] ∧
    formatOf (fileNameOf "/pics/notes.txt") ∉ allowedFormats ∧
    addFileByPath statW [fileJpg] "/pics/notes.txt" = [fileJpg] ∧
    (([fileJpg].filter (fun f => f.path != "")).map (fun f => f.path)).Nodup ∧
    (((addFileByPath statW [fileJpg] "/pics/b.png").filter
      (fun f => f.path != "")).map (fun f => f.path)).Nodup :=
  ⟨by decide,
   C9_addFileByPath_idempotent.1 statW [fileJpg] "/pics/a.jpg" (by decide),
   by decide,
   C9_addFileByPath_idempotent.2.1 statW [fileJpg] "/pics/notes.txt" (by decide),
   by decide,
   C9_addFileByPath_idempotent.2.2 statW [fileJpg] "/pics/b.png" (by decide)⟩
